import Mathlib

/-!
A shallow embedding of the nanoGo tree-walking interpreter
(`interp/evaluator.go`, `interp/types.go`, `interp/environment.go`,
`interp/builtins.go`) in Lean 4, together with theorems settling the
claims about its specification.

Modelling conventions:

* Go `int` is modelled as `Int`; arithmetic that can overflow in Go is
  wrapped through two's complement 64-bit semantics (`wrap64`).
* Go `float64` is modelled as `ℚ`; theorems about float results only assert
  the tag (which variant is produced), never IEEE-specific values, and `x/0`
  (Go: Inf/NaN) is the total `ℚ` division.
* Pointer-typed runtime containers (`*SliceVal`, `*MapVal`, `*ChannelVal`)
  are modelled as indices into explicit heaps carried in the machine state
  `St`, so aliasing and in-place mutation are observable.
* `*StructVal` values are modelled inline (no claim mutates a struct field).
* Go panics raised by the host runtime itself (send on a closed Go channel,
  integer division by zero) are modelled as the error `RtErr.hostPanic`,
  distinct from the interpreter's own `*panicError` (`RtErr.panicked`) and
  from ordinary `RuntimeError` returns (`RtErr.runtime`); the `recover`
  clause of `callFunction` discriminates exactly as the source does.
* The interpreter functions are indexed by a fuel parameter (decremented on
  every entry) solely so that Lean accepts the recursion; the Go source has
  no fuel.  `RtErr.outOfFuel` never occurs in any theorem below: every
  theorem supplies enough fuel.
* The embedded AST covers the statement and expression forms the claims are
  about.  Node kinds absent from the embedded AST (composite literals,
  selectors, slicing, indexing, range/for/if/switch, function literals, …)
  simply have no constructor here; each embedded branch is a faithful
  transcription of the corresponding branch of the source.
-/

namespace NanoGo

/-! ## Two's-complement 64-bit integer helpers (Go `int` arithmetic) -/

/-- Interpret an integer as its unsigned 64-bit representative. -/
def toU64 (x : Int) : Nat := (x.emod (2 ^ 64)).toNat

/-- Interpret an unsigned 64-bit representative as a signed Go `int`. -/
def ofU64 (n : Nat) : Int :=
  if n < 2 ^ 63 then (n : Int) else (n : Int) - 2 ^ 64

/-- Wrap an integer into signed 64-bit two's complement, as Go `int`
arithmetic does on overflow. -/
def wrap64 (x : Int) : Int := ofU64 (toU64 x)

/-- Go `x & y` on `int`. -/
def goAnd (x y : Int) : Int := ofU64 (Nat.land (toU64 x) (toU64 y))

/-- Go `x | y` on `int`. -/
def goOr (x y : Int) : Int := ofU64 (Nat.lor (toU64 x) (toU64 y))

/-- Go `x ^ y` (binary xor) on `int`. -/
def goXor (x y : Int) : Int := ofU64 (Nat.xor (toU64 x) (toU64 y))

/-- Go `x &^ y` (and-not) on `int`. -/
def goAndNot (x y : Int) : Int :=
  ofU64 (Nat.land (toU64 x) (Nat.xor (toU64 y) (2 ^ 64 - 1)))

/-- Go's conversion `uint(r)` applied to a shift count (negative counts
become huge unsigned values). -/
def goUint (r : Int) : Nat := toU64 r

/-- Go `x << u` on `int` with an unsigned count: counts ≥ 64 yield 0,
otherwise multiply by `2^u` and wrap. -/
def goShl (x : Int) (u : Nat) : Int :=
  if 64 ≤ u then 0 else wrap64 (x * 2 ^ u)

/-- Go `x >> u` on `int` with an unsigned count: arithmetic shift;
counts ≥ 64 yield the sign fill. -/
def goShr (x : Int) (u : Nat) : Int :=
  if 64 ≤ u then (if x < 0 then -1 else 0) else Int.fdiv x (2 ^ u)

/-! ## Runtime values (`interp/types.go`)

`Value` models the dynamic `any` universe of the interpreter: Go `int`,
`float64`, `bool`, `string`, `nil`, `*SliceVal`/`*MapVal`/`*ChannelVal`
(as heap indices), `*StructVal` (inline), `*Function`, and the typed nil
`(*StructVal)(nil)` produced by `zeroValue` on pointer types. -/

/-- Native functions that the fragment's hosts install.  `consoleLog` is the
test harness native from `interp_test.go` (`newTestVM`), which appends
`ToString(args[0])` as a line to an output buffer; `convert` is the builtin
type-conversion closure produced by `evalExpr` for a builtin type name. -/
inductive NativeTag where
  | consoleLog
  | convert (typ : String)
deriving Repr, DecidableEq

/-- Binary operator tokens (the subset of `go/token` used by
`applyBinaryOp`). -/
inductive BinOp where
  | add | sub | mul | quo | rem
  | shl | shr | bitAnd | bitOr | bitXor | andNot
  | logAnd | logOr
  | eql | neq | lss | gtr | leq | geq
deriving Repr, DecidableEq

/-- Unary operator tokens used by `evalExpr`'s `*ast.UnaryExpr` branch. -/
inductive UnOp where
  | not | neg | pos | bnot | addr | arrow
deriving Repr, DecidableEq

/-- Embedded expressions: the `ast.Expr` node kinds the claims are about.
`intLit`/`strLit` carry the literal payload (`strLit` carries the string
with the surrounding quotes already stripped, as `evalExpr` does). -/
inductive Expr where
  | intLit (s : String)
  | strLit (s : String)
  | ident (name : String)
  | unary (op : UnOp) (e : Expr)
  | binary (op : BinOp) (l r : Expr)
  | call (fname : String) (args : List Expr)
deriving Repr

/-- Embedded statements: the `ast.Stmt` node kinds the claims are about.
`define` is an `*ast.AssignStmt` with `token.DEFINE`. -/
inductive Stmt where
  | exprS (e : Expr)
  | send (ch v : Expr)
  | define (lhs : List String) (rhs : List Expr)
  | deferS (fname : String) (args : List Expr)
  | ret (e : Option Expr)
deriving Repr

/-- A function value (`interp.Function`).  Every function declared at the
top level captures the global environment (`fn.Env = global` in `Run`), so
no separate environment is stored; `callFunction` chains the local scope to
the globals.  Function literals (closures) are not part of the fragment:
the source `evalExpr` has no `*ast.FuncLit` case. -/
structure Funcv where
  name : String
  params : List String
  isVariadic : Bool
  body : List Stmt
  native : Option NativeTag
deriving Repr

/-- Runtime values. -/
inductive Value where
  | vnull
  | vint (n : Int)
  | vfloat (q : ℚ)
  | vbool (b : Bool)
  | vstr (s : String)
  | vslice (a : Nat)
  | vmapv (a : Nat)
  | vchan (a : Nat)
  | vstruct (tn : String) (fields : List (String × Value))
  | vfunc (fn : Funcv)
  | vnilStruct
deriving Repr

/-! ## Coercions (`ToInt`, `ToFloat`, `ToBool`, `ToString`)

The `int64` cases of the source coercions are host-native artifacts (no
evaluator-produced value carries that tag) and are outside the fragment. -/

/-- One step of the decimal accumulation `n = n*10 + int(c-'0')` used by the
string parses (Go `int` arithmetic, hence wrapped). -/
def digitStep (n : Int) (c : Char) : Int :=
  wrap64 (wrap64 (n * 10) + ((c.toNat : Int) - ('0'.toNat : Int)))

/-- The leading-digits accumulation loop shared by `ToInt` and the
`token.INT` literal case: consume decimal digits, stop at the first
non-digit. -/
def parseDigits (n : Int) : List Char → Int
  | [] => n
  | c :: rest => if c < '0' ∨ '9' < c then n else parseDigits (digitStep n c) rest

/-- Go's `int(q)` conversion on a float: truncation toward zero. -/
def truncQ (q : ℚ) : Int := if q < 0 then Int.ceil q else Int.floor q

/-- `ToInt` from `interp/types.go`: pass `int`, truncate `float64`,
`bool` to 0/1, parse an optional sign and leading decimal digits of a
string, everything else 0. -/
def ToInt (v : Value) : Int :=
  match v with
  | .vint x => x
  | .vfloat x => truncQ x
  | .vbool x => if x then 1 else 0
  | .vstr x =>
      match x.toList with
      | c :: rest =>
          if c = '+' ∨ c = '-' then
            (if c = '-' then -1 else 1) * parseDigits 0 rest
          else parseDigits 0 (c :: rest)
      | [] => 0
  | _ => 0

/-- The fractional-digit accumulation loop of `ToFloat`: consume decimal
digits building `frac` and `base`, then stop. -/
def parseFracDigits (frac base : ℚ) : List Char → ℚ × ℚ
  | [] => (frac, base)
  | c :: rest =>
      if '0' ≤ c ∧ c ≤ '9' then
        parseFracDigits (frac * 10 + ((c.toNat : ℚ) - ('0'.toNat : ℚ))) (base * 10) rest
      else (frac, base)

/-- The integer-part accumulation loop of `ToFloat`, returning the value
and the remaining characters. -/
def parseIntPart (intp : ℚ) : List Char → ℚ × List Char
  | [] => (intp, [])
  | c :: rest =>
      if '0' ≤ c ∧ c ≤ '9' then
        parseIntPart (intp * 10 + ((c.toNat : ℚ) - ('0'.toNat : ℚ))) rest
      else (intp, c :: rest)

/-- `ToFloat` from `interp/types.go`: pass `float64`, widen `int`,
`bool` to 0/1, parse "±digits[.digits]" of a string, everything else 0. -/
def ToFloat (v : Value) : ℚ :=
  match v with
  | .vfloat x => x
  | .vint x => (x : ℚ)
  | .vbool x => if x then 1 else 0
  | .vstr x =>
      let (sign, s) :=
        match x.toList with
        | c :: rest =>
            if c = '+' ∨ c = '-' then ((if c = '-' then (-1 : ℚ) else 1), rest)
            else (1, c :: rest)
        | [] => ((1 : ℚ), [])
      let (intp, s1) := parseIntPart 0 s
      let (frac, base) :=
        match s1 with
        | '.' :: rest => parseFracDigits 0 1 rest
        | _ => (0, 1)
      sign * (intp + frac / base)
  | _ => 0

/-- `ToBool` from `interp/types.go`: pass `bool`, numbers by ≠ 0, strings
false iff "", "0" or "false"; otherwise Go's `v != nil` (true for every
non-nil interface value, including a typed nil pointer). -/
def ToBool (v : Value) : Bool :=
  match v with
  | .vbool x => x
  | .vint x => x != 0
  | .vfloat x => decide (x ≠ 0)
  | .vstr x => decide (x ≠ "" ∧ x ≠ "0" ∧ x ≠ "false")
  | .vnull => false
  | _ => true

/-! ## Value hashing (`hashKey`) and string formatting -/

/-- The dynamic type name of a value, as Go's `%T` verb renders the
corresponding `any`; pointer variants carry their package-qualified Go
type name. -/
def goTypeName (v : Value) : String :=
  match v with
  | .vnull => "<nil>"
  | .vint _ => "int"
  | .vfloat _ => "float64"
  | .vbool _ => "bool"
  | .vstr _ => "string"
  | .vslice _ => "*interp.SliceVal"
  | .vmapv _ => "*interp.MapVal"
  | .vchan _ => "*interp.ChannelVal"
  | .vstruct _ _ => "*interp.StructVal"
  | .vfunc _ => "*interp.Function"
  | .vnilStruct => "*interp.StructVal"

/-- A deterministic stand-in for Go's `%v` rendering of a value in the
fallback branches of `hashKey` and `ToString`.  For pointer variants Go
prints a machine address, which is not representable in a pure model; a
heap index is printed instead.  No theorem below depends on this
rendering. -/
def goFmtVal (v : Value) : String :=
  match v with
  | .vnull => "<nil>"
  | .vint n => toString n
  | .vfloat q => toString q.num ++ "/" ++ toString q.den
  | .vbool b => if b then "true" else "false"
  | .vstr s => s
  | .vslice a => "0xslice" ++ toString a
  | .vmapv a => "0xmap" ++ toString a
  | .vchan a => "0xchan" ++ toString a
  | .vstruct tn _ => "&\x7b" ++ tn ++ "\x7d"
  | .vfunc fn => "0xfunc:" ++ fn.name
  | .vnilStruct => "<nil>"

/-- Insertion of a pair into a name-sorted list (ascending by name): the
result of the source's in-place selection sort over field names. -/
def insertPair (p : String × String) : List (String × String) → List (String × String)
  | [] => [p]
  | q :: rest => if p.1 ≤ q.1 then p :: q :: rest else q :: insertPair p rest

/-- Sort name/hash pairs ascending by name (the order the source's
selection sort of field names produces). -/
def sortPairs : List (String × String) → List (String × String)
  | [] => []
  | p :: rest => insertPair p (sortPairs rest)

/-- Render sorted name/hash pairs as the source does:
`name=hash;` concatenated. -/
def renderPairs : List (String × String) → String
  | [] => ""
  | (n, h) :: rest => n ++ "=" ++ h ++ ";" ++ renderPairs rest

mutual

/-- `hashKey` from `interp/types.go`: stable string hash used for map keys
and struct equality.  Ints hash as `i:n`, strings as `s:…`, bools as
`b:0/1`; structs hash as `struct:Name:` followed by `field=hash;` for the
fields in ascending field-name order; everything else falls back to
`u:%T:%v`. -/
def hashKey : Value → String
  | .vint n => "i:" ++ toString n
  | .vstr s => "s:" ++ s
  | .vbool b => if b then "b:1" else "b:0"
  | .vstruct tn fields =>
      "struct:" ++ tn ++ ":" ++ renderPairs (sortPairs (hashPairs fields))
  | v => "u:" ++ goTypeName v ++ ":" ++ goFmtVal v

/-- Hash each field value of a struct, keeping the field name. -/
def hashPairs : List (String × Value) → List (String × String)
  | [] => []
  | (n, v) :: rest => (n, hashKey v) :: hashPairs rest

end

/-! ## Machine state: heaps for the pointer-shared containers, the frame
stack, and the host output buffer -/

/-- A `SliceVal` heap object: element type tag and backing data.  `cap`
records the Go slice capacity; `append` growth beyond the capacity is
runtime-dependent in Go and is approximated by growing to the new length
(the spec's only guarantee is `cap ≥ len`).  No claim concerns capacity. -/
structure SliceObj where
  elemType : String
  data : List Value
  cap : Nat
deriving Repr

/-- A `MapVal` heap object: `data` maps `hashKey` strings to values and
`keys` maps them back to the original keys. -/
structure MapObj where
  keyType : String
  elemType : String
  data : List (String × Value)
  keys : List (String × Value)
deriving Repr

/-- A `ChannelVal` heap object: the buffered Go channel underneath is
modelled as a FIFO buffer plus capacity, with the `Closed` flag.  Closing
the Go channel and setting `Closed` happen together in `builtinClose`, so
one flag suffices. -/
structure ChanObj where
  elemType : String
  buf : List Value
  cap : Nat
  closed : Bool
deriving Repr

/-- A call frame (`interp/environment.go`): the pending deferred
invocations, each captured as callee plus already-evaluated arguments
(receivers do not occur in the fragment). -/
structure Frame where
  defers : List (Funcv × List Value)
deriving Repr

/-- The mutable machine state: the three heaps, the frame stack of the
(single) task, and the output buffer written by the test harness's
`ConsoleLog` native (one entry per call). -/
structure St where
  slices : List SliceObj
  maps : List MapObj
  chans : List ChanObj
  frames : List Frame
  trace : List String
deriving Repr

/-- The empty machine state. -/
def St.empty : St := ⟨[], [], [], [], []⟩

/-- Replace the `i`-th element of a list (identity when out of range),
modelling an in-place update through a pointer. -/
def setNth {α : Type} : List α → Nat → α → List α
  | [], _, _ => []
  | _ :: rest, 0, a => a :: rest
  | x :: rest, i+1, a => x :: setNth rest i a

/-- `ToString` from `interp/types.go`: strings pass; ints and bools print
canonically; floats print via `%g` (its shortest-decimal rendering is not
reproducible for `ℚ`, so the fallback rendering stands in; no theorem
depends on a float rendering); a slice of the `byte` alias rebuilds the
byte string; everything else falls back to `%v`.  The slice branch reads
through the heap, hence the `St` argument. -/
def ToString (st : St) (v : Value) : String :=
  match v with
  | .vstr x => x
  | .vint x => toString x
  | .vbool x => if x then "true" else "false"
  | .vslice a =>
      match st.slices.get? a with
      | some obj =>
          if obj.elemType = "byte" then
            String.mk (obj.data.map (fun e => Char.ofNat (toU64 (goAnd (ToInt e) 255))))
          else goFmtVal v
      | none => goFmtVal v
  | _ => goFmtVal v

/-- Go interface equality `a == b`, the default branch of `equals`:
values of different dynamic types are unequal; pointer variants compare by
identity (heap index); scalars compare structurally.  Go compares two
`*Function` values by pointer; distinct top-level functions have distinct
names, so name comparison stands in (no theorem compares functions). -/
def refEq (a b : Value) : Bool :=
  match a, b with
  | .vnull, .vnull => true
  | .vslice x, .vslice y => x == y
  | .vmapv x, .vmapv y => x == y
  | .vchan x, .vchan y => x == y
  | .vint x, .vint y => x == y
  | .vfloat x, .vfloat y => decide (x = y)
  | .vbool x, .vbool y => x == y
  | .vstr x, .vstr y => x == y
  | .vfunc f, .vfunc g => f.name == g.name
  | .vnilStruct, .vnilStruct => true
  | _, _ => false

/-- `equals` from `interp/evaluator.go`: dispatch on the LEFT operand's
tag and coerce the right operand to it — `int` compares `x == ToInt(b)`,
`float64` compares `x == ToFloat(b)`, `bool` compares `x == ToBool(b)`,
`string` compares `x == ToString(b)`; structs compare by `hashKey`; the
default branch is Go interface equality. -/
def equals (st : St) (a b : Value) : Bool :=
  match a with
  | .vint x => decide (x = ToInt b)
  | .vfloat x => decide (x = ToFloat b)
  | .vbool x => x == ToBool b
  | .vstr x => x == ToString st b
  | .vstruct _ _ => hashKey a == hashKey b
  | _ => refEq a b

/-! ## Type strings, zero values and the builtin functions
(`interp/builtins.go`) -/

/-- `typeString` on the embedded expression grammar: identifiers yield
their name; the remaining embedded node kinds are not type expressions and
yield "" (the source's default). -/
def typeString (e : Expr) : String :=
  match e with
  | .ident n => n
  | _ => ""

/-- `isBuiltinType` from `interp/builtins.go`. -/
def isBuiltinType (name : String) : Bool :=
  name = "int" ∨ name = "float64" ∨ name = "bool" ∨ name = "string" ∨ name = "byte"

/-- The bracket-depth scan of `parseMapType`, looking for the `]` closing
`map[`. -/
def splitMapKey (depth : Nat) (acc : List Char) : List Char → Option (String × String)
  | [] => none
  | c :: rest =>
      if c = '[' then splitMapKey (depth + 1) (acc ++ [c]) rest
      else if c = ']' then
        if depth = 1 then some (String.mk acc, String.mk rest)
        else splitMapKey (depth - 1) (acc ++ [c]) rest
      else splitMapKey depth (acc ++ [c]) rest

/-- `parseMapType` from `interp/builtins.go`: split "map[K]V" into K and V
(both trimmed); anything else yields two empty strings. -/
def parseMapType (s : String) : String × String :=
  let t := s.trim
  if t.startsWith "map[" then
    match splitMapKey 1 [] (t.drop 4).toList with
    | some (k, v) => (k.trim, v.trim)
    | none => ("", "")
  else ("", "")

/-- Allocate a fresh slice object, returning its heap index. -/
def allocSlice (st : St) (obj : SliceObj) : Nat × St :=
  (st.slices.length, { st with slices := st.slices ++ [obj] })

/-- Allocate a fresh map object, returning its heap index. -/
def allocMap (st : St) (obj : MapObj) : Nat × St :=
  (st.maps.length, { st with maps := st.maps ++ [obj] })

/-- Allocate a fresh channel object, returning its heap index. -/
def allocChan (st : St) (obj : ChanObj) : Nat × St :=
  (st.chans.length, { st with chans := st.chans ++ [obj] })

/-- `zeroValue` from `interp/builtins.go`: scalar types yield their zero;
pointer types yield the typed nil `(*StructVal)(nil)`; slice, map and
channel types allocate a fresh empty container; any other name yields an
empty struct of that name. -/
def zeroValue (typ : String) (st : St) : Value × St :=
  if typ = "int" ∨ typ = "byte" then (.vint 0, st)
  else if typ = "float64" then (.vfloat 0, st)
  else if typ = "bool" then (.vbool false, st)
  else if typ = "string" then (.vstr "", st)
  else if typ = "struct\x7b\x7d" ∨ typ = "nil" then (.vnull, st)
  else if typ.startsWith "*" then (.vnilStruct, st)
  else if typ.startsWith "[]" then
    let (a, st') := allocSlice st ⟨typ.drop 2, [], 0⟩
    (.vslice a, st')
  else if typ.startsWith "map[" then
    let (k, v) := parseMapType typ
    let (a, st') := allocMap st ⟨k, v, [], []⟩
    (.vmapv a, st')
  else if typ.startsWith "chan " then
    let (a, st') := allocChan st ⟨typ.drop 5, [], 0, false⟩
    (.vchan a, st')
  else (.vstruct typ [], st)

/-- The fill loop of `builtinMake` for slices: `length` successive
element zeros, threading the state (a container element type allocates one
fresh object per slot, as the source loop does). -/
def makeZeros (elem : String) : Nat → St → List Value × St
  | 0, st => ([], st)
  | n+1, st =>
      let (z, st') := zeroValue elem st
      let (rest, st2) := makeZeros elem n st'
      (z :: rest, st2)

/-- `builtinMake` from `interp/builtins.go`: `make([]T, len[, cap])`,
`make(map[K]V)`, `make(chan T[, cap])`; anything else yields Go `nil`.
(A negative slice length makes the Go runtime panic; it is clamped to 0
here — no claim concerns `make`, and the embedded expression grammar has
no type expressions, so this branch is unreachable from embedded
programs.) -/
def builtinMake (typ : String) (args : List Value) (st : St) : Value × St :=
  if typ.startsWith "[]" then
    let elem := typ.drop 2
    let length := if h : 0 < args.length then (ToInt (args.get ⟨0, h⟩)).toNat else 0
    let capacity0 := if h : 1 < args.length then (ToInt (args.get ⟨1, h⟩)).toNat else 0
    let capacity := max capacity0 length
    let (data, st0) := makeZeros elem length st
    let (a, st') := allocSlice st0 ⟨elem, data, capacity⟩
    (.vslice a, st')
  else if typ.startsWith "map[" then
    let (k, v) := parseMapType typ
    let (a, st') := allocMap st ⟨k, v, [], []⟩
    (.vmapv a, st')
  else if typ.startsWith "chan " then
    let elem := (typ.drop 5).trim
    let c := if h : 0 < args.length then max (ToInt (args.get ⟨0, h⟩)).toNat 0 else 0
    let (a, st') := allocChan st ⟨elem, [], c, false⟩
    (.vchan a, st')
  else (.vnull, st)

/-- `builtinLen` from `interp/builtins.go`: byte length of a string,
length of a slice's data or of a map's entry table, 0 otherwise. -/
def builtinLen (st : St) (v : Value) : Int :=
  match v with
  | .vstr s => (s.utf8ByteSize : Int)
  | .vslice a =>
      match st.slices.get? a with
      | some obj => (obj.data.length : Int)
      | none => 0
  | .vmapv a =>
      match st.maps.get? a with
      | some obj => (obj.data.length : Int)
      | none => 0
  | _ => 0

/-- `builtinCap` from `interp/builtins.go`: the capacity of a slice,
0 otherwise. -/
def builtinCap (st : St) (v : Value) : Int :=
  match v with
  | .vslice a =>
      match st.slices.get? a with
      | some obj => (obj.cap : Int)
      | none => 0
  | _ => 0

/-- The per-element coercion `builtinAppend` applies: a slice of the
`byte` alias masks each appended element to 8 bits via `ToInt(e) & 0xFF`;
any other element type appends the value unchanged. -/
def appendElem (elemType : String) (e : Value) : Value :=
  if elemType = "byte" then .vint (goAnd (ToInt e) 255) else e

/-- `builtinAppend` from `interp/builtins.go`: a non-slice first argument
is returned unchanged; a slice is mutated IN PLACE — the same `*SliceVal`
heap object has every element appended to its data — and that same slice
value is returned. -/
def builtinAppend (slice : Value) (elems : List Value) (st : St) : Value × St :=
  match slice with
  | .vslice a =>
      match st.slices.get? a with
      | some obj =>
          let newData := obj.data ++ elems.map (appendElem obj.elemType)
          let newCap := max obj.cap newData.length
          (.vslice a, { st with slices := setNth st.slices a ⟨obj.elemType, newData, newCap⟩ })
      | none => (.vslice a, st)
  | _ => (slice, st)

/-- `builtinCopy` from `interp/builtins.go`: element-wise copy of
`min(len dst, len src)` elements into the destination slice, returning the
count; non-slice arguments copy nothing. -/
def builtinCopy (dst src : Value) (st : St) : Int × St :=
  match dst, src with
  | .vslice da, .vslice sa =>
      match st.slices.get? da, st.slices.get? sa with
      | some dobj, some sobj =>
          let n := min dobj.data.length sobj.data.length
          let newData := sobj.data.take n ++ dobj.data.drop n
          ((n : Int), { st with slices := setNth st.slices da ⟨dobj.elemType, newData, dobj.cap⟩ })
      | _, _ => (0, st)
  | _, _ => (0, st)

/-- `builtinClose` from `interp/builtins.go`: a non-channel argument is
ignored; an OPEN channel is closed (the Go channel is closed and the
`Closed` flag set); an ALREADY-CLOSED channel is left untouched — the
`if !c.Closed` guard makes the second close a silent no-op.  The source
returns `nil` in every case; there is no error path. -/
def builtinClose (ch : Value) (st : St) : Value × St :=
  match ch with
  | .vchan a =>
      match st.chans.get? a with
      | some c =>
          if c.closed then (.vnull, st)
          else (.vnull, { st with chans := setNth st.chans a ⟨c.elemType, c.buf, c.cap, true⟩ })
      | none => (.vnull, st)
  | _ => (.vnull, st)

/-- `builtinConvert` from `interp/builtins.go`: the conversion calls
`int(x)`, `float64(x)`, `bool(x)`, `string(x)`, `byte(x)`; any other type
name passes the value through. -/
def builtinConvert (typ : String) (v : Value) (st : St) : Value :=
  if typ = "int" then .vint (ToInt v)
  else if typ = "float64" then .vfloat (ToFloat v)
  else if typ = "bool" then .vbool (ToBool v)
  else if typ = "string" then .vstr (ToString st v)
  else if typ = "byte" then .vint (goAnd (ToInt v) 255)
  else v

/-- `deleteByKey` of `MapVal`: remove the hashed key from both tables. -/
def mapDeleteByKey (m : MapObj) (k : Value) : MapObj :=
  let h := hashKey k
  { m with data := m.data.filter (fun p => p.1 ≠ h),
           keys := m.keys.filter (fun p => p.1 ≠ h) }

/-! ## Errors, control-flow signals, environments, frames -/

/-- Runtime failures.  `runtime` models a `RuntimeError` returned through
the call chain; `panicked` models the interpreter's `*panicError`
carrying the panic value; `hostPanic` models a panic raised by the Go
runtime the interpreter itself runs on (send on a closed Go channel,
integer division by zero); `blocked` marks a channel operation that would
suspend the single modelled task forever (an unmodelled deadlock — no
theorem reaches it); `outOfFuel` is the fuel artifact. -/
inductive RtErr where
  | runtime (msg : String)
  | panicked (v : Value)
  | hostPanic (msg : String)
  | blocked
  | outOfFuel
deriving Repr

/-- The control-flow signal returned by statement evaluation
(`controlFlow` in the source). -/
inductive Ctl where
  | normal
  | ret (v : Value)
  | brk
  | cont
deriving Repr

/-- An environment: the flattened lexical chain, innermost bindings first
(`declare` conses onto the front; `get` takes the first match, which is
exactly the source's innermost-outward walk). -/
def Env := List (String × Value)

/-- `declare` from `interp/environment.go`: bind in the innermost scope. -/
def declare (name : String) (v : Value) (env : Env) : Env := (name, v) :: env

/-- `get` from `interp/environment.go`: walk the chain outward to the
first binding. -/
def envGet (name : String) (env : Env) : Option Value :=
  match env with
  | [] => none
  | (n, v) :: rest => if n = name then some v else envGet name rest

/-- The immutable interpreter tables (`interp.Interpreter`): the global
environment (which `Run` and `RegisterNative` also populate with function
values), the top-level function table, the native table and the declared
type names.  Mutation of these tables happens only during `Run`'s
declaration pass, outside the evaluation fragment. -/
structure Vm where
  globals : Env
  funcs : List (String × Funcv)
  natives : List (String × NativeTag)
  types : List String

/-- Look up an association list. -/
def assocGet {α : Type} (name : String) : List (String × α) → Option α
  | [] => none
  | (n, v) :: rest => if n = name then some v else assocGet name rest

/-- `pushFrame`: push a fresh frame on the task's stack (head = top). -/
def pushFrame (st : St) : St := { st with frames := ⟨[]⟩ :: st.frames }

/-- `popFrame`: pop the top frame (no-op on an empty stack, as in the
source). -/
def popFrame (st : St) : St :=
  match st.frames with
  | [] => st
  | _ :: rest => { st with frames := rest }

/-- `currentFrame`: the top frame's defers, if any frame exists. -/
def currentDefers (st : St) : Option (List (Funcv × List Value)) :=
  match st.frames with
  | [] => none
  | f :: _ => some f.defers

/-- Append a deferred invocation to the current frame
(`frame.defers = append(frame.defers, …)`). -/
def appendDefer (st : St) (inv : Funcv × List Value) : St :=
  match st.frames with
  | [] => st
  | f :: rest => { st with frames := ⟨f.defers ++ [inv]⟩ :: rest }

/-! ## Channel primitives (the Go channel operations the evaluator
performs on `ChannelVal.C`) -/

/-- The Go statement `ch.C <- val` (`evalStmt`'s `*ast.SendStmt` case
performs it with NO closed-channel check): sending on a closed Go channel
panics in the host runtime with "send on closed channel"; otherwise the
value is queued if there is buffer space, and the single modelled task
blocks forever if not. -/
def goChanSend (st : St) (a : Nat) (v : Value) : Except RtErr St :=
  match st.chans.get? a with
  | none => .error .blocked
  | some c =>
      if c.closed then .error (.hostPanic "send on closed channel")
      else if c.buf.length < c.cap then
        .ok { st with chans := setNth st.chans a ⟨c.elemType, c.buf ++ [v], c.cap, c.closed⟩ }
      else .error .blocked

/-- The Go expression `v, ok := <-ch.C`: a buffered value is delivered
with ok = true; a closed, drained channel delivers the Go zero of
`chan any`'s element — interface `nil` — with ok = false; an open, drained
channel blocks the single modelled task. -/
def goChanRecv (st : St) (a : Nat) : Except RtErr (Value × Bool × St) :=
  match st.chans.get? a with
  | none => .error .blocked
  | some c =>
      match c.buf with
      | v :: rest =>
          .ok (v, true, { st with chans := setNth st.chans a ⟨c.elemType, rest, c.cap, c.closed⟩ })
      | [] =>
          if c.closed then .ok (.vnull, false, st)
          else .error .blocked

/-! ## Binary and unary operators (`applyBinaryOp` and the unary cases of
`evalExpr`) -/

/-- `isFloat` from `interp/evaluator.go`. -/
def isFloat (v : Value) : Bool :=
  match v with
  | .vfloat _ => true
  | _ => false

/-- `isString`: the `_, ok := v.(string)` type tests of `applyBinaryOp`. -/
def isString (v : Value) : Bool :=
  match v with
  | .vstr _ => true
  | _ => false

/-- `applyBinaryOp` from `interp/evaluator.go`.  `+` concatenates when
either side is a string, otherwise is float addition when either side is a
float, otherwise wrapped int addition; `-`/`*` likewise promote to float;
`/` ALWAYS divides as floats; `%` divides the integer coercions (the Go
`%` panics in the host runtime when the divisor is zero); the shifts and
bitwise operators work on the integer coercions; `&&`/`||` combine the
bool coercions (both operands were already evaluated by the caller);
`==`/`!=` use `equals`; the orderings promote to float when either side is
a float and otherwise compare the integer coercions. -/
def applyBinaryOp (st : St) (op : BinOp) (l r : Value) : Except RtErr Value :=
  match op with
  | .add =>
      if isString l ∨ isString r then .ok (.vstr (ToString st l ++ ToString st r))
      else if isFloat l ∨ isFloat r then .ok (.vfloat (ToFloat l + ToFloat r))
      else .ok (.vint (wrap64 (ToInt l + ToInt r)))
  | .sub =>
      if isFloat l ∨ isFloat r then .ok (.vfloat (ToFloat l - ToFloat r))
      else .ok (.vint (wrap64 (ToInt l - ToInt r)))
  | .mul =>
      if isFloat l ∨ isFloat r then .ok (.vfloat (ToFloat l * ToFloat r))
      else .ok (.vint (wrap64 (ToInt l * ToInt r)))
  | .quo => .ok (.vfloat (ToFloat l / ToFloat r))
  | .rem =>
      if ToInt r = 0 then .error (.hostPanic "runtime error: integer divide by zero")
      else .ok (.vint (Int.tmod (ToInt l) (ToInt r)))
  | .shl => .ok (.vint (goShl (ToInt l) (goUint (ToInt r))))
  | .shr => .ok (.vint (goShr (ToInt l) (goUint (ToInt r))))
  | .bitAnd => .ok (.vint (goAnd (ToInt l) (ToInt r)))
  | .bitOr => .ok (.vint (goOr (ToInt l) (ToInt r)))
  | .bitXor => .ok (.vint (goXor (ToInt l) (ToInt r)))
  | .andNot => .ok (.vint (goAndNot (ToInt l) (ToInt r)))
  | .logAnd => .ok (.vbool (ToBool l && ToBool r))
  | .logOr => .ok (.vbool (ToBool l || ToBool r))
  | .eql => .ok (.vbool (equals st l r))
  | .neq => .ok (.vbool (!equals st l r))
  | .lss =>
      if isFloat l ∨ isFloat r then .ok (.vbool (decide (ToFloat l < ToFloat r)))
      else .ok (.vbool (decide (ToInt l < ToInt r)))
  | .gtr =>
      if isFloat l ∨ isFloat r then .ok (.vbool (decide (ToFloat r < ToFloat l)))
      else .ok (.vbool (decide (ToInt r < ToInt l)))
  | .leq =>
      if isFloat l ∨ isFloat r then .ok (.vbool (decide (ToFloat l ≤ ToFloat r)))
      else .ok (.vbool (decide (ToInt l ≤ ToInt r)))
  | .geq =>
      if isFloat l ∨ isFloat r then .ok (.vbool (decide (ToFloat r ≤ ToFloat l)))
      else .ok (.vbool (decide (ToInt r ≤ ToInt l)))

/-- The non-receive unary cases of `evalExpr`: `!` negates the bool
coercion; `-`/`+` act on floats when the operand is a float, else on the
wrapped integer coercion; `^` is bitwise complement of the integer
coercion; `&` (address-of) returns the operand unchanged. -/
def applyUnaryOp (op : UnOp) (v : Value) : Except RtErr Value :=
  match op with
  | .not => .ok (.vbool (!ToBool v))
  | .neg =>
      if isFloat v then .ok (.vfloat (-(ToFloat v)))
      else .ok (.vint (wrap64 (-(ToInt v))))
  | .pos =>
      if isFloat v then .ok (.vfloat (ToFloat v))
      else .ok (.vint (ToInt v))
  | .bnot => .ok (.vint (goXor (ToInt v) (-1)))
  | .addr => .ok v
  | .arrow => .error (.runtime "unsupported unary op")

/-! ## Identifier resolution and native invocation -/

/-- The `*ast.Ident` branch of `evalExpr`: a builtin type name yields a
native conversion function; otherwise look the name up in the environment
chain, then the top-level function table, then the native table, then the
type table (a type name evaluates to its name string), and fail with
"undefined: name". -/
def lookupIdent (vm : Vm) (env : Env) (name : String) : Except RtErr Value :=
  if isBuiltinType name then
    .ok (.vfunc ⟨name, [], false, [], some (.convert name)⟩)
  else
    match envGet name env with
    | some v => .ok v
    | none =>
        match assocGet name vm.funcs with
        | some f => .ok (.vfunc f)
        | none =>
            match assocGet name vm.natives with
            | some tag => .ok (.vfunc ⟨name, [], false, [], some tag⟩)
            | none =>
                if vm.types.contains name then .ok (.vstr name)
                else .error (.runtime ("undefined: " ++ name))

/-- Run a native function body.  `consoleLog` is the `newTestVM` harness
native: `ToString` of the first argument is appended to the output buffer
(nothing happens without arguments); `convert` is the builtin-type
conversion closure: no arguments yield the type's zero value, otherwise
`builtinConvert` is applied to the first argument. -/
def runNative (tag : NativeTag) (args : List Value) (st : St) : Except RtErr Value × St :=
  match tag with
  | .consoleLog =>
      match args.head? with
      | some v => (.ok .vnull, { st with trace := st.trace ++ [ToString st v] })
      | none => (.ok .vnull, st)
  | .convert typ =>
      match args.head? with
      | some v => (.ok (builtinConvert typ v st), st)
      | none =>
          let (z, st') := zeroValue typ st
          (.ok z, st')

/-- The `token.INT` case of `evalExpr`'s `*ast.BasicLit` branch:
accumulate leading decimal digits of the literal text. -/
def parseIntLit (s : String) : Int := parseDigits 0 s.toList

/-- Parameter binding of `callFunction` for the regular (non-packed)
parameters: missing arguments are padded with `nil`. -/
def bindRegular (params : List String) (args : List Value) (env : Env) : Env :=
  match params, args with
  | [], _ => env
  | p :: ps, [] => bindRegular ps [] (declare p .vnull env)
  | p :: ps, a :: rest => bindRegular ps rest (declare p a env)

/-- Parameter binding of `callFunction`: the local scope is a child of the
function's captured environment (always the globals in the fragment); a
variadic function packs the trailing arguments into a fresh slice of
element tag "any". -/
def bindParams (fn : Funcv) (args : List Value) (globals : Env) (st : St) : Env × St :=
  if fn.isVariadic ∧ fn.params ≠ [] then
    let k := fn.params.length - 1
    let env1 := bindRegular (fn.params.take k) (args.take k) globals
    let rest := args.drop k
    let (a, st') := allocSlice st ⟨"any", rest, rest.length⟩
    (declare (fn.params.getD k "") (.vslice a) env1, st')
  else
    (bindRegular fn.params args globals, st)

/-- The left-hand-side loop of `token.DEFINE`: declare each identifier in
order, skipping "_"; with several right-hand values each identifier takes
its positional value (an out-of-range position is a Go index panic in the
source). -/
def defineAll (lhs : List String) (rightVals : List Value) (i : Nat) (env : Env) :
    Except RtErr Env :=
  match lhs with
  | [] => .ok env
  | name :: rest =>
      if name = "_" then defineAll rest rightVals (i + 1) env
      else
        let v? := if rightVals.length = 1 then rightVals.get? 0 else rightVals.get? i
        match v? with
        | some v => defineAll rest rightVals (i + 1) (declare name v env)
        | none => .error (.hostPanic "runtime error: index out of range")

/-! ## The evaluator (`evalExpr`, `evalStmt`, `callFunction`)

All functions are indexed by fuel, decremented on every entry; the Go
source recurses without fuel.  Claims are settled with explicitly
sufficient fuel. -/

mutual

/-- `evalExpr` from `interp/evaluator.go`, on the embedded expression
grammar.  Note the `*ast.BinaryExpr` branch: BOTH operands are evaluated
before `applyBinaryOp` runs, for every operator including `&&` and `||`. -/
def evalExpr : Nat → Vm → Env → Expr → St → Except RtErr Value × St
  | 0, _, _, _, st => (.error .outOfFuel, st)
  | _fuel+1, _, _, .intLit s, st => (.ok (.vint (parseIntLit s)), st)
  | _fuel+1, _, _, .strLit s, st => (.ok (.vstr s), st)
  | _fuel+1, vm, env, .ident n, st => (lookupIdent vm env n, st)
  | fuel+1, vm, env, .unary .arrow e, st =>
      -- receive from channel: <-ch (single-value form)
      (match evalExpr fuel vm env e st with
       | (.error err, st') => (.error err, st')
       | (.ok v, st') =>
           match v with
           | .vchan a =>
               (match goChanRecv st' a with
                | .error err => (.error err, st')
                | .ok (val, ok2, st2) =>
                    if ok2 then (.ok val, st2)
                    else
                      let et := match st2.chans.get? a with
                                | some c => c.elemType
                                | none => ""
                      let (z, st3) := zeroValue et st2
                      (.ok z, st3))
           | _ => (.error (.runtime "receive on non-channel"), st'))
  | fuel+1, vm, env, .unary op e, st =>
      (match evalExpr fuel vm env e st with
       | (.error err, st') => (.error err, st')
       | (.ok v, st') => (applyUnaryOp op v, st'))
  | fuel+1, vm, env, .binary op l r, st =>
      (match evalExpr fuel vm env l st with
       | (.error err, st') => (.error err, st')
       | (.ok lv, st') =>
           match evalExpr fuel vm env r st' with
           | (.error err, st2) => (.error err, st2)
           | (.ok rv, st2) => (applyBinaryOp st2 op lv rv, st2))
  | fuel+1, vm, env, .call fname args, st =>
      -- builtins dispatched on the callee identifier, then the normal call
      if fname = "make" then
        match args with
        | [] => (.error (.runtime "make: missing type"), st)
        | t :: rest =>
            let tstr := typeString t
            (match evalExprs fuel vm env rest st with
             | (.error err, st') => (.error err, st')
             | (.ok vs, st') =>
                 let (v, st2) := builtinMake tstr vs st'
                 (.ok v, st2))
      else if fname = "len" then
        if args.length ≠ 1 then (.ok (.vint 0), st)
        else
          match evalExprs fuel vm env args st with
          | (.error err, st') => (.error err, st')
          | (.ok vs, st') => (.ok (.vint (builtinLen st' (vs.getD 0 .vnull))), st')
      else if fname = "cap" then
        if args.length ≠ 1 then (.ok (.vint 0), st)
        else
          match evalExprs fuel vm env args st with
          | (.error err, st') => (.error err, st')
          | (.ok vs, st') => (.ok (.vint (builtinCap st' (vs.getD 0 .vnull))), st')
      else if fname = "append" then
        match args with
        | [] => (.error (.runtime "append: args"), st)
        | s0 :: rest =>
            (match evalExpr fuel vm env s0 st with
             | (.error err, st') => (.error err, st')
             | (.ok sv, st') =>
                 match evalExprs fuel vm env rest st' with
                 | (.error err, st2) => (.error err, st2)
                 | (.ok els, st2) =>
                     let (v, st3) := builtinAppend sv els st2
                     (.ok v, st3))
      else if fname = "copy" then
        if args.length ≠ 2 then (.ok (.vint 0), st)
        else
          match evalExprs fuel vm env args st with
          | (.error err, st') => (.error err, st')
          | (.ok vs, st') =>
              let (n, st2) := builtinCopy (vs.getD 0 .vnull) (vs.getD 1 .vnull) st'
              (.ok (.vint n), st2)
      else if fname = "close" then
        if args.length ≠ 1 then (.error (.runtime "close: need channel"), st)
        else
          match evalExprs fuel vm env args st with
          | (.error err, st') => (.error err, st')
          | (.ok vs, st') =>
              let (v, st2) := builtinClose (vs.getD 0 .vnull) st'
              (.ok v, st2)
      else if fname = "delete" then
        if args.length ≠ 2 then (.ok .vnull, st)
        else
          match evalExprs fuel vm env args st with
          | (.error err, st') => (.error err, st')
          | (.ok vs, st') =>
              match vs.getD 0 .vnull with
              | .vmapv a =>
                  (match st'.maps.get? a with
                   | some m =>
                       (.ok .vnull,
                        { st' with maps := setNth st'.maps a (mapDeleteByKey m (vs.getD 1 .vnull)) })
                   | none => (.ok .vnull, st'))
              | _ => (.ok .vnull, st')
      else if fname = "panic" then
        match args with
        | [] => (.error (.panicked (.vstr "panic")), st)
        | a :: _ =>
            (match evalExpr fuel vm env a st with
             | (.error err, st') => (.error err, st')
             | (.ok v, st') => (.error (.panicked v), st'))
      else
        -- normal function call: the callee identifier evaluates as an
        -- identifier (package and method selectors are outside the
        -- embedded grammar), then the arguments, then the invocation
        match lookupIdent vm env fname with
        | .error err => (.error err, st)
        | .ok callee =>
            match callee with
            | .vfunc fn =>
                (match evalExprs fuel vm env args st with
                 | (.error err, st') => (.error err, st')
                 | (.ok vs, st') => callFunction fuel vm fn vs st')
            | _ => (.error (.runtime "not a function"), st)
termination_by structural fuel _ _ _ _ => fuel

/-- Left-to-right evaluation of an argument list. -/
def evalExprs : Nat → Vm → Env → List Expr → St → Except RtErr (List Value) × St
  | 0, _, _, _, st => (.error .outOfFuel, st)
  | _fuel+1, _, _, [], st => (.ok [], st)
  | fuel+1, vm, env, e :: rest, st =>
      match evalExpr fuel vm env e st with
      | (.error err, st') => (.error err, st')
      | (.ok v, st') =>
          match evalExprs fuel vm env rest st' with
          | (.error err, st2) => (.error err, st2)
          | (.ok vs, st2) => (.ok (v :: vs), st2)
termination_by structural fuel _ _ _ _ => fuel

/-- The right-hand-side loop of `evalStmt`'s `*ast.AssignStmt` case: with
exactly two left-hand sides, a `<-ch` receive anywhere in the list
replaces the whole right-hand value list with the two-value receive pair
(the source's `goto RHS_DONE`); the returned flag records that
replacement. -/
def evalRhsList : Nat → Vm → Bool → Env → List Expr → St → Except RtErr (List Value × Bool) × St
  | 0, _, _, _, _, st => (.error .outOfFuel, st)
  | _fuel+1, _, _, _, [], st => (.ok ([], false), st)
  | fuel+1, vm, twoLhs, env, r :: rest, st =>
      match r, twoLhs with
      | .unary .arrow che, true =>
          -- two-value receive v, ok := <-ch
          (match evalExpr fuel vm env che st with
           | (.error err, st') => (.error err, st')
           | (.ok cv, st') =>
               match cv with
               | .vchan a =>
                   (match goChanRecv st' a with
                    | .error err => (.error err, st')
                    | .ok (v, ok2, st2) => (.ok ([v, .vbool ok2], true), st2))
               | _ => (.error (.runtime "receive on non-channel"), st'))
      | _, _ =>
          match evalExpr fuel vm env r st with
          | (.error err, st') => (.error err, st')
          | (.ok v, st') =>
              match evalRhsList fuel vm twoLhs env rest st' with
              | (.error err, st2) => (.error err, st2)
              | (.ok (vs, true), st2) => (.ok (vs, true), st2)
              | (.ok (vs, false), st2) => (.ok (v :: vs, false), st2)
termination_by structural fuel _ _ _ _ _ => fuel

/-- `evalStmt` from `interp/evaluator.go`, on the embedded statement
grammar, threading the (mutable) innermost environment. -/
def evalStmt : Nat → Vm → Stmt → Env → St → Except RtErr Ctl × Env × St
  | 0, _, _, env, st => (.error .outOfFuel, env, st)
  | fuel+1, vm, .exprS e, env, st =>
      (match evalExpr fuel vm env e st with
       | (.error err, st') => (.error err, env, st')
       | (.ok _, st') => (.ok .normal, env, st'))
  | fuel+1, vm, .send che ve, env, st =>
      -- evaluate the channel, then the value, then send (no closed check:
      -- a closed channel makes the Go runtime itself panic)
      (match evalExpr fuel vm env che st with
       | (.error err, st') => (.error err, env, st')
       | (.ok cv, st') =>
           match evalExpr fuel vm env ve st' with
           | (.error err, st2) => (.error err, env, st2)
           | (.ok v, st2) =>
               match cv with
               | .vchan a =>
                   (match goChanSend st2 a v with
                    | .error err => (.error err, env, st2)
                    | .ok st3 => (.ok .normal, env, st3))
               | _ => (.error (.runtime "send on non-channel"), env, st2))
  | fuel+1, vm, .define lhs rhs, env, st =>
      -- `v, ok := m[k]` needs an index expression and is outside the
      -- embedded grammar; the two-value receive special case lives in
      -- `evalRhsList`; resolving the (identifier) left-hand sides has no
      -- effect
      (match evalRhsList fuel vm (lhs.length = 2) env rhs st with
       | (.error err, st') => (.error err, env, st')
       | (.ok (rightVals, _), st') =>
           match defineAll lhs rightVals 0 env with
           | .error err => (.error err, env, st')
           | .ok env' => (.ok .normal, env', st'))
  | fuel+1, vm, .deferS fname args, env, st =>
      -- capture callee and argument snapshot now; register on the frame
      (match lookupIdent vm env fname with
       | .error err => (.error err, env, st)
       | .ok callee =>
           match callee with
           | .vfunc fn =>
               (match evalExprs fuel vm env args st with
                | (.error err, st') => (.error err, env, st')
                | (.ok vs, st') =>
                    match currentDefers st' with
                    | none => (.error (.runtime "defer outside of function"), env, st')
                    | some _ => (.ok .normal, env, appendDefer st' (fn, vs)))
           | _ => (.error (.runtime "not a function"), env, st))
  | fuel+1, vm, .ret oe, env, st =>
      match oe with
      | none => (.ok (.ret .vnull), env, st)
      | some e =>
          match evalExpr fuel vm env e st with
          | (.error err, st') => (.error err, env, st')
          | (.ok v, st') => (.ok (.ret v), env, st')
termination_by structural fuel _ _ _ _ => fuel

/-- Sequential statement execution (the body loop of `callFunction` and of
block statements): a non-`normal` control signal aborts the sequence. -/
def execStmts : Nat → Vm → List Stmt → Env → St → Except RtErr Ctl × Env × St
  | 0, _, _, env, st => (.error .outOfFuel, env, st)
  | _fuel+1, _, [], env, st => (.ok .normal, env, st)
  | fuel+1, vm, s :: rest, env, st =>
      match evalStmt fuel vm s env st with
      | (.error err, env', st') => (.error err, env', st')
      | (.ok .normal, env', st') => execStmts fuel vm rest env' st'
      | (.ok c, env', st') => (.ok c, env', st')
termination_by structural fuel _ _ _ _ => fuel

/-- `callFunction` from `interp/evaluator.go`: push a frame; native
functions are invoked directly; user functions bind their parameters in a
child scope of the captured (global) environment and run their body; on
EVERY exit the deferred function runs the frame's defers in reverse
registration order and pops the frame, and its `recover()` converts a
`*panicError` into the returned error — any OTHER panic (a host runtime
panic such as a send on a closed channel) is consumed by `recover()`
without being converted, so the call returns with a nil error. -/
def callFunction : Nat → Vm → Funcv → List Value → St → Except RtErr Value × St
  | 0, _, _, _, st => (.error .outOfFuel, st)
  | fuel+1, vm, fn, args, st =>
      let st1 := pushFrame st
      match fn.native with
      | some tag =>
          -- natives cannot register defers; the deferred exit pops the frame
          let (res, st2) := runNative tag args st1
          (res, popFrame st2)
      | none =>
          let (localEnv, st1') := bindParams fn args vm.globals st1
          let (bodyRes, _, st2) := execStmts fuel vm fn.body localEnv st1'
          let ds := (currentDefers st2).getD []
          let st3 := runDefersRev fuel vm ds.reverse st2
          let st4 := popFrame st3
          match bodyRes with
          | .ok (.ret v) => (.ok v, st4)
          | .ok .normal => (.ok .vnull, st4)
          | .ok .brk => (.error (.runtime "break/continue outside loop"), st4)
          | .ok .cont => (.error (.runtime "break/continue outside loop"), st4)
          | .error (.panicked v) => (.error (.panicked v), st4)
          | .error (.hostPanic _) => (.ok .vnull, st4)
          | .error err => (.error err, st4)
termination_by structural fuel _ _ _ _ => fuel

/-- The defer-unwinding loop of `callFunction` (`for i := len-1; …`),
already given the reversed list: each deferred invocation is a full call
whose result — value AND error, panics included — is discarded
(`_, _ = vm.callFunction(…)`). -/
def runDefersRev : Nat → Vm → List (Funcv × List Value) → St → St
  | 0, _, _, st => st
  | _fuel+1, _, [], st => st
  | fuel+1, vm, d :: rest, st =>
      let (_, st') := callFunction fuel vm d.1 d.2 st
      runDefersRev fuel vm rest st'
termination_by structural fuel _ _ _ => fuel

end

/-! ## The select statement (modelled from the spec)

The select statement is exercised by the repository's tests
(`TestSelectDefault` and friends in `interp_test.go`), but the evaluator
source at hand has no `*ast.SelectStmt` case in `evalStmt`: the
implementation is code of the repository that is not among the given
sources.  The following definitions are therefore modelled from §4.H of
the specification rather than transcribed. -/

/-- Modelled from the spec: a select case is either a send case
`case ch <- v:` or a receive case `case [x :=] <-ch:`, each with a body.
(The select implementation itself is missing from the given sources.) -/
inductive SelCase where
  | sendCase (ch v : Expr) (body : List Stmt)
  | recvCase (bind : Option String) (ch : Expr) (body : List Stmt)

/-- The channel expression of a select case. -/
def selCaseChan : SelCase → Expr
  | .sendCase ch _ _ => ch
  | .recvCase _ ch _ => ch

/-- Modelled from the spec: "evaluates each case's channel expression" —
resolve every case's channel to a channel object, propagating evaluation
errors and rejecting non-channels. -/
def resolveSelCases (fuel : Nat) (vm : Vm) (env : Env) :
    List SelCase → St → Except RtErr (List (SelCase × Nat)) × St
  | [], st => (.ok [], st)
  | c :: rest, st =>
      match evalExpr fuel vm env (selCaseChan c) st with
      | (.error err, st') => (.error err, st')
      | (.ok v, st') =>
          match v with
          | .vchan a =>
              (match resolveSelCases fuel vm env rest st' with
               | (.error err, st2) => (.error err, st2)
               | (.ok rs, st2) => (.ok ((c, a) :: rs), st2))
          | _ => (.error (.runtime "select on non-channel"), st')

/-- Modelled from the spec: a case is immediately ready iff it is a "send
with space" or a "receive with value or closed". -/
def selReady (st : St) (p : SelCase × Nat) : Bool :=
  match st.chans.get? p.2 with
  | none => false
  | some ch =>
      match p.1 with
      | .sendCase _ _ _ => decide (ch.buf.length < ch.cap)
      | .recvCase _ _ _ => !ch.buf.isEmpty || ch.closed

/-- Modelled from the spec: run one chosen ready case — a send case sends
the evaluated value and runs its body; a receive case receives, binds its
variable per the assignment rules of §4.F (a drained-and-closed channel
binds the element zero), and runs its body. -/
def execSelCase (fuel : Nat) (vm : Vm) (env : Env) (p : SelCase × Nat) (st : St) :
    Except RtErr Ctl × Env × St :=
  match p.1 with
  | .sendCase _ ve body =>
      (match evalExpr fuel vm env ve st with
       | (.error err, st') => (.error err, env, st')
       | (.ok v, st') =>
           match goChanSend st' p.2 v with
           | .error err => (.error err, env, st')
           | .ok st2 => execStmts fuel vm body env st2)
  | .recvCase bind _ body =>
      match goChanRecv st p.2 with
      | .error err => (.error err, env, st)
      | .ok (v, ok2, st') =>
          let (bv, st2) :=
            if ok2 then (v, st')
            else
              let et := match st'.chans.get? p.2 with
                        | some c => c.elemType
                        | none => ""
              zeroValue et st'
          let env' := match bind with
                      | some name => declare name bv env
                      | none => env
          execStmts fuel vm body env' st2

/-- Modelled from the spec (§4.H): evaluate every case's channel
expression; if some case is immediately ready, pick one among the ready
cases (the spec's uniform randomness is modelled by the oracle `pick`) and
execute it; if none is ready and a default clause exists, execute the
default clause's body; otherwise block. -/
def evalSelect (fuel : Nat) (vm : Vm) (env : Env) (cases : List SelCase)
    (deflt : Option (List Stmt)) (pick : Nat) (st : St) : Except RtErr Ctl × Env × St :=
  match resolveSelCases fuel vm env cases st with
  | (.error err, st') => (.error err, env, st')
  | (.ok rcs, st') =>
      match rcs.filter (selReady st') with
      | [] =>
          (match deflt with
           | some body => execStmts fuel vm body env st'
           | none => (.error .blocked, env, st'))
      | r :: rs => execSelCase fuel vm env ((r :: rs).getD (pick % (r :: rs).length) r) st'

/-! ## Test fixtures

A host configuration mirroring `newTestVM` of `interp_test.go`: the
`ConsoleLog` native (registered into both the native table and the global
environment, as `RegisterNative` does), a user function `boom` whose body
panics (collected into both the function table and the global environment,
as `Run` does), and a global channel variable `ch` bound to the channel at
heap index 0. -/

/-- The `ConsoleLog` native as a `Function` value. -/
def logFn : Funcv := ⟨"ConsoleLog", [], false, [], some .consoleLog⟩

/-- A user function whose body is `panic("B")`. -/
def boomFn : Funcv := ⟨"boom", [], false, [.exprS (.call "panic" [.strLit "B"])], none⟩

/-- The test interpreter tables. -/
def vmT : Vm :=
  ⟨[("ConsoleLog", .vfunc logFn), ("boom", .vfunc boomFn), ("ch", .vchan 0)],
   [("boom", boomFn)],
   [("ConsoleLog", .consoleLog)],
   []⟩

/-- A machine state whose only object is a CLOSED, drained `chan int` of
capacity 1 at heap index 0. -/
def stChClosed : St := ⟨[], [], [⟨"int", [], 1, true⟩], [], []⟩

/-- A machine state whose only object is an OPEN, empty `chan int` of
capacity 1 at heap index 0. -/
def stChOpen : St := ⟨[], [], [⟨"int", [], 1, false⟩], [], []⟩

/-! ## C1 — short-circuit evaluation of `&&` and `||` -/

/-- Claim C1 (code_bug): the spec requires `a && b` not to evaluate `b` when `a`
is false (and symmetrically for `||`), but `evalExpr`'s `*ast.BinaryExpr`
branch evaluates BOTH operands before dispatching on the operator.
Failing inputs: with `a = false`, evaluating `a && xyz` (xyz undefined)
returns the error "undefined: xyz" instead of `false`; with `a = false`,
evaluating `a && ConsoleLog("side")` performs the RHS call — its side
effect lands in the output buffer — even though the result is `false`;
symmetrically `b || xyz` with `b = true` errors instead of yielding
`true`. -/
theorem logical_ops_evaluate_rhs_eagerly :
    (evalExpr 9 vmT (("a", .vbool false) :: vmT.globals)
        (.binary .logAnd (.ident "a") (.ident "xyz")) St.empty).1
      = .error (.runtime "undefined: xyz")
    ∧ (evalExpr 9 vmT (("b", .vbool true) :: vmT.globals)
        (.binary .logOr (.ident "b") (.ident "xyz")) St.empty).1
      = .error (.runtime "undefined: xyz")
    ∧ evalExpr 9 vmT (("a", .vbool false) :: vmT.globals)
        (.binary .logAnd (.ident "a") (.call "ConsoleLog" [.strLit "side"])) St.empty
      = (.ok (.vbool false), { St.empty with trace := ["side"] }) := by
  exact ⟨rfl, rfl, rfl⟩

/-! ## C3 — send on a closed channel -/

/-- The function body `ch <- 1; ConsoleLog("after")`. -/
def sendAfterFn : Funcv :=
  ⟨"main", [], false,
    [.send (.ident "ch") (.intLit "1"), .exprS (.call "ConsoleLog" [.strLit "after"])],
    none⟩

/-- Claim C3 (code_bug): sending on a closed channel makes the Go runtime panic
with "send on closed channel" (first conjunct) — the `SendStmt` case
performs `ch.C <- val` with no closed-channel check — but `callFunction`'s
`recover()` consumes that panic without converting it (only `*panicError`
is converted), so the enclosing call returns with NO error: running a body
that sends on the closed channel and then logs "after" yields `(nil, nil)`
with nothing logged, instead of failing with "send on closed channel" as
the spec requires. -/
theorem send_on_closed_channel_error_swallowed :
    goChanSend stChClosed 0 (.vint 1) = .error (.hostPanic "send on closed channel")
    ∧ callFunction 20 vmT sendAfterFn [] stChClosed = (.ok .vnull, stChClosed) := by
  exact ⟨rfl, rfl⟩

/-! ## C7 — equality -/

/-- Claim C7 (counterexample): the claim says two values with different tags
never compare equal, naming `Int 1` vs `Bool true` and `Int 1` vs
`String "1"`; `equals` coerces its right operand to the left operand's
tag, so both pairs compare equal. -/
theorem equals_cross_tag_counterexample :
    equals St.empty (.vint 1) (.vbool true) = true
    ∧ equals St.empty (.vint 1) (.vstr "1") = true := by
  exact ⟨rfl, rfl⟩

/-- Claim C7 (amended): `equals` dispatches on the LEFT operand's tag and
compares with the RIGHT operand coerced to that tag; on two operands of
the same scalar/string tag this degenerates to structural equality, but
operands of different tags (such as `Int 1` and `Bool true`) can compare
equal. -/
theorem equals_coerces_to_left_tag :
    ∀ (st : St) (b : Value),
      (∀ x : Int, (equals st (.vint x) b = true ↔ x = ToInt b))
      ∧ (∀ q : ℚ, (equals st (.vfloat q) b = true ↔ q = ToFloat b))
      ∧ (∀ y : Bool, (equals st (.vbool y) b = true ↔ y = ToBool b))
      ∧ (∀ s : String, (equals st (.vstr s) b = true ↔ s = ToString st b)) := by
  intro st b
  refine ⟨fun x => ?_, fun q => ?_, fun y => ?_, fun s => ?_⟩ <;>
    simp [equals]

/-! ## C8 — two-value receive on a closed, drained channel -/

/-- Claim C8 (code_bug): for `v, ok := <-ch` on a closed, drained `chan int`,
the two-value-receive special case of the `*ast.AssignStmt` branch binds
`v` to the RAW value delivered by the Go receive — interface `nil`, i.e.
the Null value — with `ok = false`, instead of the element type's zero
value `0`; the single-value receive form (second conjunct) DOES go through
`zeroValue` and yields `0`, as the spec requires of both forms. -/
theorem two_value_receive_closed_yields_null :
    evalStmt 9 vmT (.define ["v", "ok"] [.unary .arrow (.ident "ch")]) vmT.globals stChClosed
      = (.ok .normal, ("ok", .vbool false) :: ("v", .vnull) :: vmT.globals, stChClosed)
    ∧ evalExpr 9 vmT vmT.globals (.unary .arrow (.ident "ch")) stChClosed
      = (.ok (.vint 0), stChClosed) := by
  exact ⟨rfl, rfl⟩

/-! ## C9 — result tags of the arithmetic operators -/

/-- Claim C9 (counterexample): `%` does not ALWAYS yield an Int result: with a
zero divisor the Go `%` panics in the host runtime ("integer divide by
zero"), so `applyBinaryOp` on `1 % 0` produces a host panic, not an Int. -/
theorem rem_zero_divisor_host_panics :
    applyBinaryOp St.empty .rem (.vint 1) (.vint 0)
      = .error (.hostPanic "runtime error: integer divide by zero") := by
  exact rfl

/-- Claim C9 (amended): `/` ALWAYS yields a Float result — the float division of
the float coercions, for every pair of operands including two Ints — and
`<<`, `>>`, `&`, `|`, `^`, `&^` always yield Int results computed on the
integer coercions; `%` yields the Int remainder of the integer coercions
whenever the divisor's integer coercion is nonzero (and host-panics when
it is zero, per the counterexample). -/
theorem quo_always_float_int_ops_int :
    ∀ (st : St) (l r : Value),
      applyBinaryOp st .quo l r = .ok (.vfloat (ToFloat l / ToFloat r))
      ∧ (ToInt r ≠ 0 →
          applyBinaryOp st .rem l r = .ok (.vint (Int.tmod (ToInt l) (ToInt r))))
      ∧ applyBinaryOp st .shl l r = .ok (.vint (goShl (ToInt l) (goUint (ToInt r))))
      ∧ applyBinaryOp st .shr l r = .ok (.vint (goShr (ToInt l) (goUint (ToInt r))))
      ∧ applyBinaryOp st .bitAnd l r = .ok (.vint (goAnd (ToInt l) (ToInt r)))
      ∧ applyBinaryOp st .bitOr l r = .ok (.vint (goOr (ToInt l) (ToInt r)))
      ∧ applyBinaryOp st .bitXor l r = .ok (.vint (goXor (ToInt l) (ToInt r)))
      ∧ applyBinaryOp st .andNot l r = .ok (.vint (goAndNot (ToInt l) (ToInt r))) := by
  intro st l r
  refine ⟨rfl, fun h => ?_, rfl, rfl, rfl, rfl, rfl, rfl⟩
  simp [applyBinaryOp, h]

/-- Witness for claim C9: the amended theorem applied at `7 % 3` (divisor coercion
nonzero), together with `14 / 4` yielding the Float `7/2` even though both
operands are Ints. -/
theorem quo_always_float_int_ops_int_witness :
    ToInt (.vint 3) ≠ 0
    ∧ applyBinaryOp St.empty .rem (.vint 7) (.vint 3) = .ok (.vint (Int.tmod 7 3))
    ∧ applyBinaryOp St.empty .quo (.vint 14) (.vint 4) = .ok (.vfloat (ToFloat (.vint 14) / ToFloat (.vint 4))) :=
  ⟨by decide,
   (quo_always_float_int_ops_int St.empty (.vint 7) (.vint 3)).2.1 (by decide),
   (quo_always_float_int_ops_int St.empty (.vint 14) (.vint 4)).1⟩

/-! ## C4 — closing an already-closed channel -/

/-- Claim C4 (counterexample): the claim says a second `close(ch)` fails; in
fact `builtinClose` guards with `if !c.Closed`, so evaluating
`close(ch); close(ch)` succeeds silently: the first close returns `nil`
and marks the channel closed, and the second close ALSO returns `nil` with
the state untouched — no error occurs. -/
theorem double_close_is_silent_noop :
    evalExpr 9 vmT vmT.globals (.call "close" [.ident "ch"]) stChOpen
      = (.ok .vnull, stChClosed)
    ∧ evalExpr 9 vmT vmT.globals (.call "close" [.ident "ch"]) stChClosed
      = (.ok .vnull, stChClosed) := by
  exact ⟨rfl, rfl⟩

/-- Claim C4 (amended): closing an already-closed channel is a silent no-op —
`builtinClose` returns `nil` and leaves the state unchanged (only the
FIRST close marks the channel closed); it does not fail. -/
theorem close_on_closed_channel_noop :
    ∀ (st : St) (a : Nat) (c : ChanObj),
      st.chans.get? a = some c → c.closed = true →
      builtinClose (.vchan a) st = (.vnull, st) := by
  intro st a c h hc
  have h' : st.chans[a]? = some c := by
    rw [← List.get?_eq_getElem?]; exact h
  simp [builtinClose, h', hc]

/-- Witness for claim C4: the amended theorem applied to the closed test channel. -/
theorem close_on_closed_channel_noop_witness :
    stChClosed.chans.get? 0 = some ⟨"int", [], 1, true⟩
    ∧ builtinClose (.vchan 0) stChClosed = (.vnull, stChClosed) :=
  ⟨rfl, close_on_closed_channel_noop stChClosed 0 ⟨"int", [], 1, true⟩ rfl rfl⟩

/-! ## C10 — append -/

/-- Claim C10 (counterexample): the claim says the new elements are appended at
the end unchanged; for a slice whose element type is the `byte` alias,
`builtinAppend` appends `ToInt(e) & 0xFF` instead: appending `256` to an
empty byte slice stores `0`, not `256`. -/
theorem append_byte_masks_element :
    builtinAppend (.vslice 0) [.vint 256] ⟨[⟨"byte", [], 0⟩], [], [], [], []⟩
      = (.vslice 0, ⟨[⟨"byte", [.vint 0], 1⟩], [], [], [], []⟩)
    ∧ Value.vint 0 ≠ Value.vint 256 := by
  refine ⟨rfl, by simp⟩

/-- `setNth` preserves the length of the list. -/
theorem setNth_length {α : Type} (l : List α) (i : Nat) (a : α) :
    (setNth l i a).length = l.length := by
  induction l generalizing i with
  | nil => simp [setNth]
  | cons x rest ih =>
      cases i with
      | zero => simp [setNth]
      | succ j => simp [setNth, ih]

/-- Reading back the updated index of `setNth`. -/
theorem setNth_get_self {α : Type} (l : List α) (i : Nat) (a : α) (h : i < l.length) :
    (setNth l i a).get? i = some a := by
  induction l generalizing i with
  | nil => simp at h
  | cons x rest ih =>
      cases i with
      | zero => simp [setNth]
      | succ j =>
          simp only [setNth, List.get?]
          exact ih j (by simpa using h)

/-- Claim C10 (amended): `append` mutates its slice argument in place: the
returned value is the IDENTICAL slice object (same heap reference), no
fresh slice is created (the slice heap keeps its size), and the object's
data afterwards is the old data with the elements appended at the end —
appended unchanged whenever the element type is not the `byte` alias, and
masked to 8 bits via `ToInt(e) & 0xFF` for byte slices (per the
counterexample).  In particular the length grows by the number of appended
elements, and any other binding of the same slice observes the appended
elements through the shared heap object. -/
theorem append_mutates_in_place :
    ∀ (st : St) (a : Nat) (obj : SliceObj) (elems : List Value),
      st.slices.get? a = some obj →
      (builtinAppend (.vslice a) elems st).1 = .vslice a
      ∧ (builtinAppend (.vslice a) elems st).2.slices.length = st.slices.length
      ∧ (builtinAppend (.vslice a) elems st).2.slices.get? a
          = some ⟨obj.elemType, obj.data ++ elems.map (appendElem obj.elemType),
                  max obj.cap (obj.data.length + elems.length)⟩
      ∧ (obj.elemType ≠ "byte" → elems.map (appendElem obj.elemType) = elems) := by
  intro st a obj elems h
  have hlt : a < st.slices.length := by
    obtain ⟨hl, -⟩ := List.get?_eq_some.mp h
    exact hl
  refine ⟨?_, ?_, ?_, ?_⟩
  · simp only [builtinAppend, h]
  · simp only [builtinAppend, h]
    simp [setNth_length]
  · simp only [builtinAppend, h]
    rw [setNth_get_self _ _ _ hlt]
    rw [List.length_append, List.length_map]
  · intro hbyte
    have hid : appendElem obj.elemType = fun e => e := by
      funext e; simp [appendElem, hbyte]
    rw [hid, List.map_id']

/-- Witness for claim C10: the amended theorem applied to an int slice `[1]` with
`append(s, 2, 3)`: the same object (index 0) is returned, the heap keeps
one slice, and the data becomes `[1, 2, 3]`. -/
theorem append_mutates_in_place_witness :
    (⟨[⟨"int", [.vint 1], 1⟩], [], [], [], []⟩ : St).slices.get? 0 = some ⟨"int", [.vint 1], 1⟩
    ∧ ((builtinAppend (.vslice 0) [.vint 2, .vint 3] ⟨[⟨"int", [.vint 1], 1⟩], [], [], [], []⟩).1
          = .vslice 0
        ∧ (builtinAppend (.vslice 0) [.vint 2, .vint 3] ⟨[⟨"int", [.vint 1], 1⟩], [], [], [], []⟩).2.slices.length
          = (⟨[⟨"int", [.vint 1], 1⟩], [], [], [], []⟩ : St).slices.length
        ∧ (builtinAppend (.vslice 0) [.vint 2, .vint 3] ⟨[⟨"int", [.vint 1], 1⟩], [], [], [], []⟩).2.slices.get? 0
          = some ⟨"int", [.vint 1] ++ [Value.vint 2, Value.vint 3].map (appendElem "int"),
                  max 1 ([Value.vint 1].length + [Value.vint 2, Value.vint 3].length)⟩
        ∧ ("int" ≠ "byte" → [Value.vint 2, Value.vint 3].map (appendElem "int") = [Value.vint 2, Value.vint 3])) :=
  ⟨rfl, append_mutates_in_place ⟨[⟨"int", [.vint 1], 1⟩], [], [], [], []⟩ 0 ⟨"int", [.vint 1], 1⟩
      [.vint 2, .vint 3] rfl⟩

/-! ## C5 / C6 — defer machinery

Program families: a body registering `k` defers `ConsoleLog("d0")`, …,
`ConsoleLog("d(k-1)")` in that order, then terminating by `return "r"`,
by `panic("P")`, or (for C6) by registering one final panicking defer and
returning. -/

/-- The log tag of the `i`-th registered defer. -/
def tagOf (i : Nat) : String := "d" ++ toString i

/-- `k` defer statements `defer ConsoleLog(tag i)`, …, tags `i, i+1, …`. -/
def deferSeq : Nat → Nat → List Stmt
  | _, 0 => []
  | i, k+1 => .deferS "ConsoleLog" [.strLit (tagOf i)] :: deferSeq (i+1) k

/-- The tags of `deferSeq i k` in registration order. -/
def tagSeq : Nat → Nat → List String
  | _, 0 => []
  | i, k+1 => tagOf i :: tagSeq (i+1) k

/-- The deferred invocation recorded for `defer ConsoleLog(s)`. -/
def mkLogInv (s : String) : Funcv × List Value := (logFn, [.vstr s])

/-- A state whose only content is one call frame holding `ds`. -/
def stFrame (ds : List (Funcv × List Value)) : St := ⟨[], [], [], [⟨ds⟩], []⟩

/-- `return "r"`. -/
def retStmt : Stmt := .ret (some (.strLit "r"))

/-- `panic("P")`. -/
def panicStmt : Stmt := .exprS (.call "panic" [.strLit "P"])

/-- The function registering `k` defers and returning `"r"`. -/
def retFn (k : Nat) : Funcv := ⟨"f", [], false, deferSeq 0 k ++ [retStmt], none⟩

/-- The function registering `k` defers and then panicking. -/
def panicFn (k : Nat) : Funcv := ⟨"f", [], false, deferSeq 0 k ++ [panicStmt], none⟩

/-- The function registering `k` log defers, then one final `defer boom()`
(which will panic during unwinding), then returning `"r"`. -/
def deferBoomFn (k : Nat) : Funcv :=
  ⟨"f", [], false, deferSeq 0 k ++ [.deferS "boom" [], retStmt], none⟩

theorem tagSeq_length (k : Nat) : ∀ i, (tagSeq i k).length = k := by
  induction k with
  | zero => intro i; rfl
  | succ k ih => intro i; simp [tagSeq, ih]

/-- Executing one `defer ConsoleLog(s)` statement registers the captured
invocation on the current frame and nothing else. -/
theorem evalStmt_deferLog (F : Nat) (s : String) (ds : List (Funcv × List Value)) :
    evalStmt (F+3) vmT (.deferS "ConsoleLog" [.strLit s]) vmT.globals (stFrame ds)
      = (.ok .normal, vmT.globals, stFrame (ds ++ [mkLogInv s])) := rfl

/-- Executing a prefix of `k` defer statements registers the `k`
invocations in registration order and consumes one fuel unit per
statement. -/
theorem execStmts_deferSeq (k : Nat) :
    ∀ (i F : Nat) (ds : List (Funcv × List Value)) (rest : List Stmt),
      execStmts (k+F+4) vmT (deferSeq i k ++ rest) vmT.globals (stFrame ds)
        = execStmts (F+4) vmT rest vmT.globals
            (stFrame (ds ++ (tagSeq i k).map mkLogInv)) := by
  induction k with
  | zero =>
      intro i F ds rest
      rw [show 0+F+4 = F+4 by ring]
      simp [deferSeq, tagSeq]
  | succ k ih =>
      intro i F ds rest
      rw [show k+1+F+4 = ((k+1+F)+3)+1 by ring]
      simp only [deferSeq, List.cons_append, execStmts, evalStmt_deferLog, List.append_eq]
      rw [show (k+1+F)+3 = k+F+4 by ring]
      rw [ih (i+1) F (ds ++ [mkLogInv (tagOf i)]) rest]
      congr 2
      simp [tagSeq, List.append_assoc]

/-- The `return "r"` terminator yields the Return signal without touching
the state. -/
theorem execStmts_retStmt (F : Nat) (st : St) :
    execStmts (F+4) vmT [retStmt] vmT.globals st
      = (.ok (.ret (.vstr "r")), vmT.globals, st) := rfl

/-- The `panic("P")` terminator yields the panic error without touching
the state. -/
theorem execStmts_panicStmt (F : Nat) (st : St) :
    execStmts (F+4) vmT [panicStmt] vmT.globals st
      = (.error (.panicked (.vstr "P")), vmT.globals, st) := rfl

/-- The `defer boom(); return "r"` tail registers the boom invocation and
returns. -/
theorem execStmts_deferBoomTail (F : Nat) (ds : List (Funcv × List Value)) :
    execStmts (F+4) vmT [.deferS "boom" [], retStmt] vmT.globals
        ⟨[], [], [], [⟨ds⟩], []⟩
      = (.ok (.ret (.vstr "r")), vmT.globals, (⟨[], [], [], [⟨ds ++ [(boomFn, [])]⟩], []⟩ : St)) := rfl

/-- A deferred `ConsoleLog(s)` invocation appends `s` to the output buffer
and succeeds (its pushed frame is popped again). -/
theorem callFunction_log (G : Nat) (s : String) (st : St) :
    callFunction (G+1) vmT logFn [.vstr s] st
      = (.ok .vnull, { st with trace := st.trace ++ [s] }) := rfl

/-- A `boom()` invocation panics with "B", leaving the state unchanged
(frame pushed and popped, no defers of its own). -/
theorem callFunction_boom (G : Nat) (st : St) :
    callFunction (G+5) vmT boomFn [] st
      = (.error (.panicked (.vstr "B")), st) := rfl

/-- Running a list of deferred `ConsoleLog` invocations appends their tags
to the output buffer in list order. -/
theorem runDefersRev_logs (tags : List String) :
    ∀ (F : Nat) (st : St),
      runDefersRev (tags.length + F + 2) vmT (tags.map mkLogInv) st
        = { st with trace := st.trace ++ tags } := by
  induction tags with
  | nil =>
      intro F st
      rw [show List.length [] + F + 2 = F+2 by simp]
      simp [runDefersRev]
  | cons t rest ih =>
      intro F st
      rw [show (t :: rest).length + F + 2 = (rest.length + F + 2)+1 by
        simp [List.length_cons]; ring]
      simp only [List.map_cons, runDefersRev, mkLogInv, callFunction_log]
      rw [ih F { st with trace := st.trace ++ [t] }]
      simp [List.append_assoc]

/-- `pushFrame` on the empty state is the one-empty-frame state. -/
theorem pushFrame_empty : pushFrame St.empty = stFrame [] := rfl

/-- Binding no parameters of a non-variadic function yields the captured
globals unchanged. -/
theorem bindParams_mk (nm : String) (body : List Stmt) (tag : Option NativeTag)
    (glb : Env) (st : St) :
    bindParams ⟨nm, [], false, body, tag⟩ [] glb st = (glb, st) := rfl

/-- Claim C5 (confirmed): in every invocation of a function that registers the
deferred invocations d0, d1, …, d(k-1) in that order, the defers execute
in LIFO order d(k-1), …, d1, d0 when the body exits — the output buffer
ends up holding the tags in REVERSED registration order — both on normal
return (first conjunct; the return value also comes through) and during
panic unwinding (second conjunct; the panic surfaces as the call's error
after the defers have run). -/
theorem defer_lifo_order :
    ∀ k : Nat,
      callFunction (k+13) vmT (retFn k) [] St.empty
        = (.ok (.vstr "r"), ⟨[], [], [], [], (tagSeq 0 k).reverse⟩)
      ∧ callFunction (k+13) vmT (panicFn k) [] St.empty
        = (.error (.panicked (.vstr "P")), ⟨[], [], [], [], (tagSeq 0 k).reverse⟩) := by
  intro k
  constructor
  · rw [show k+13 = (k+12)+1 by ring]
    simp only [callFunction, retFn, pushFrame_empty, bindParams_mk]
    rw [show k+12 = k+8+4 by ring]
    rw [execStmts_deferSeq k 0 8 [] [retStmt]]
    simp only [List.nil_append, execStmts_retStmt, currentDefers, stFrame, Option.getD]
    rw [show ((tagSeq 0 k).map mkLogInv).reverse = ((tagSeq 0 k).reverse).map mkLogInv by
      rw [← List.map_reverse]]
    rw [show k+8+4 = ((tagSeq 0 k).reverse).length + 10 + 2 by
      simp [tagSeq_length]]
    rw [runDefersRev_logs ((tagSeq 0 k).reverse) 10]
    simp [stFrame, popFrame]
  · rw [show k+13 = (k+12)+1 by ring]
    simp only [callFunction, panicFn, pushFrame_empty, bindParams_mk]
    rw [show k+12 = k+8+4 by ring]
    rw [execStmts_deferSeq k 0 8 [] [panicStmt]]
    simp only [List.nil_append, execStmts_panicStmt, currentDefers, stFrame, Option.getD]
    rw [show ((tagSeq 0 k).map mkLogInv).reverse = ((tagSeq 0 k).reverse).map mkLogInv by
      rw [← List.map_reverse]]
    rw [show k+8+4 = ((tagSeq 0 k).reverse).length + 10 + 2 by
      simp [tagSeq_length]]
    rw [runDefersRev_logs ((tagSeq 0 k).reverse) 10]
    simp [stFrame, popFrame]

/-! ## C6 — a panicking deferred invocation -/

/-- Claim C6 (counterexample): a function registers `defer ConsoleLog("d0")`
then `defer boom()` (which panics with "B") and returns `"r"`.  On exit
the boom defer runs first and panics; the earlier defer still runs
("d0" is logged) — but the surviving panic is NOT re-raised: the call
returns `("r", nil error)`, the deferred invocation's panic having been
discarded by `_, _ = vm.callFunction(…)`, contradicting the claim that
the panic surfaces as a task error. -/
theorem panicking_defer_discarded_concrete :
    callFunction 20 vmT (deferBoomFn 1) [] St.empty
      = (.ok (.vstr "r"), ⟨[], [], [], [], ["d0"]⟩) := rfl

/-- The defer-unwinding loop on a panicking boom invocation followed by
log invocations: the boom panic is discarded and every remaining
invocation still runs. -/
theorem runDefersRev_boom_logs (tags : List String) (F : Nat) (st : St) :
    runDefersRev (tags.length + F + 7) vmT ((boomFn, []) :: tags.map mkLogInv) st
      = { st with trace := st.trace ++ tags } := by
  rw [show tags.length + F + 7 = ((tags.length+F+1)+5)+1 by ring]
  simp only [runDefersRev, callFunction_boom]
  rw [show (tags.length+F+1)+5 = tags.length + (F+4) + 2 by ring]
  exact runDefersRev_logs tags (F+4) st

/-- Claim C6 (amended): when a deferred invocation panics during a function's
exit, the remaining (earlier-registered) defers still run, in LIFO order —
but the panic of the deferred invocation is DISCARDED rather than
re-raised: the call's outcome is its body's outcome (here the normal
return value "r" with no error), for every number `k` of earlier
defers. -/
theorem panicking_defer_remaining_defers_run :
    ∀ k : Nat,
      callFunction (k+10) vmT (deferBoomFn k) [] St.empty
        = (.ok (.vstr "r"), ⟨[], [], [], [], (tagSeq 0 k).reverse⟩) := by
  intro k
  rw [show k+10 = (k+9)+1 by ring]
  simp only [callFunction, deferBoomFn, pushFrame_empty, bindParams_mk]
  rw [show k+9 = k+5+4 by ring]
  rw [execStmts_deferSeq k 0 5 [] [.deferS "boom" [], retStmt]]
  simp only [List.nil_append, execStmts_deferBoomTail, currentDefers, stFrame, Option.getD]
  have hrev : ((tagSeq 0 k).map mkLogInv ++ [(boomFn, [])]).reverse
      = (boomFn, []) :: ((tagSeq 0 k).reverse).map mkLogInv := by
    rw [List.reverse_append, ← List.map_reverse]
    rfl
  rw [hrev]
  rw [show k+5+4 = ((tagSeq 0 k).reverse).length + 2 + 7 by simp [tagSeq_length]]
  rw [runDefersRev_boom_logs ((tagSeq 0 k).reverse) 2]
  simp [stFrame, popFrame]

/-! ## C2 — select with default (spec-modelled) -/

/-- Claim C2 (confirmed, spec-modelled): for every select statement in which no
case is immediately ready and a default clause exists, evaluation executes
the default clause's body (and in particular does not fail: the outcome is
exactly the outcome of running the default body). -/
theorem select_no_ready_default_runs :
    ∀ (fuel : Nat) (vm : Vm) (env : Env) (cases : List SelCase) (bodyD : List Stmt)
      (pick : Nat) (st st1 : St) (rcs : List (SelCase × Nat)),
      resolveSelCases fuel vm env cases st = (.ok rcs, st1) →
      (∀ p ∈ rcs, selReady st1 p = false) →
      evalSelect fuel vm env cases (some bodyD) pick st = execStmts fuel vm bodyD env st1 := by
  intro fuel vm env cases bodyD pick st st1 rcs h1 h2
  unfold evalSelect
  rw [h1]
  have hfil : rcs.filter (selReady st1) = [] := by
    rw [List.filter_eq_nil_iff]
    intro p hp
    simp [h2 p hp]
  simp only [hfil]

/-- The select case of the C2 witness: `case v := <-ch:` logging "got". -/
def caseW : SelCase :=
  .recvCase (some "v") (.ident "ch") [.exprS (.call "ConsoleLog" [.strLit "got"])]

/-- The default body of the C2 witness: log "default". -/
def bodyW : List Stmt := [.exprS (.call "ConsoleLog" [.strLit "default"])]

/-- Witness for claim C2: a select over an EMPTY, OPEN buffered channel with one
receive case and a default: the channel resolves, the receive case is not
ready, the theorem applies, and the default body runs — "default" is
logged and nothing fails. -/
theorem select_no_ready_default_runs_witness :
    resolveSelCases 9 vmT vmT.globals [caseW] stChOpen = (.ok [(caseW, 0)], stChOpen)
    ∧ selReady stChOpen (caseW, 0) = false
    ∧ evalSelect 9 vmT vmT.globals [caseW] (some bodyW) 0 stChOpen
        = execStmts 9 vmT bodyW vmT.globals stChOpen
    ∧ execStmts 9 vmT bodyW vmT.globals stChOpen
        = (.ok .normal, vmT.globals, { stChOpen with trace := ["default"] }) :=
  ⟨rfl, rfl,
   select_no_ready_default_runs 9 vmT vmT.globals [caseW] bodyW 0 stChOpen stChOpen
     [(caseW, 0)] rfl
     (by
       intro p hp
       rcases List.mem_singleton.mp hp with rfl
       rfl),
   rfl⟩

end NanoGo
